import Mathlib

/-!
A verification development for the cadence-demo tavern service.

The Go sources are embedded shallowly:

* `customer/customer.go` — the in-memory customer directory (`MemoryCustomers`
  with its `Get` and `Update` methods); Go's `map[string]Customer` becomes an
  association list with unique keys, and a possibly-nil map becomes an
  `Option` around that list.
* `workflows/orders/orders.go` — the order activities
  (`activitiyFindCustomerByName`, `activityIsCustomerLegal`), the child
  workflow `workflowProcessOrder`, and the orchestrator loop `WorkflowOrder`.
  The orchestrator becomes a step function `orderStep` over an explicit state
  (generation number, `signalCount`, buffered signals) that also emits a trace
  of scheduling events, driven by a delivery schedule.
* `workflows/greetings/greetings.go` — the greeting pipeline
  (`workflowGreetings`, `activityGreetings`, `activityStoreCustomer`), with
  the global `customer.Database` and the module-level `visitorCount` threaded
  explicitly and `time.Now()` supplied as a parameter.
-/

/-- Go `time.Time`, modelled as an abstract instant. -/
abbrev GoTime := Int

/-- The `Customer` struct of `customer/customer.go`. -/
structure Customer where
  Name : String
  LastVisit : GoTime
  TimesVisited : Int
  Age : Int
deriving Repr, DecidableEq

/-- The Go zero value of `Customer`, returned by `Get` on a miss. -/
def Customer.zero : Customer :=
  { Name := "", LastVisit := 0, TimesVisited := 0, Age := 0 }

/-- Lookup in a Go `map[string]Customer` modelled as an association list. -/
def mapGet (m : List (String × Customer)) (k : String) : Option Customer :=
  match m with
  | [] => none
  | (k0, v) :: rest => if k0 = k then some v else mapGet rest k

/-- Assignment `m[k] = v` on a Go map: replaces the binding for `k` when
present, appends it otherwise. -/
def mapPut (m : List (String × Customer)) (k : String) (v : Customer) :
    List (String × Customer) :=
  match m with
  | [] => [(k, v)]
  | (k0, v0) :: rest => if k0 = k then (k, v) :: rest else (k0, v0) :: mapPut rest k v

/-- The `MemoryCustomers` struct: a possibly-nil Go map (`none` is the nil map). -/
structure MemoryCustomers where
  Customers : Option (List (String × Customer))
deriving Repr, DecidableEq

/-- `NewMemoryCustomers` allocates an empty (non-nil) map. -/
def NewMemoryCustomers : MemoryCustomers := { Customers := some [] }

/-- The underlying mapping of a possibly-nil map (a nil map reads as empty). -/
def MemoryCustomers.raw (mc : MemoryCustomers) : List (String × Customer) :=
  mc.Customers.getD []

/-- The record stored under `name`, if any: the observable content of the
directory at one key. -/
def MemoryCustomers.lookup (mc : MemoryCustomers) (name : String) : Option Customer :=
  mapGet mc.raw name

/-- Method `Get` of `MemoryCustomers`: after the nil check (which allocates an
empty map in place), returns the stored record, or the zero `Customer` plus
the error `no such customer: <name>` on a miss.  The (possibly mutated)
receiver is returned first. -/
def MemoryCustomers.Get (mc : MemoryCustomers) (name : String) :
    MemoryCustomers × Customer × Option String :=
  match mapGet mc.raw name with
  | some cust => ({ Customers := some mc.raw }, cust, none)
  | none => ({ Customers := some mc.raw }, Customer.zero, some ("no such customer: " ++ name))

/-- Method `Update` of `MemoryCustomers`: after the nil check, stores the
record under its `Name` key and returns `nil` error. -/
def MemoryCustomers.Update (mc : MemoryCustomers) (c : Customer) :
    MemoryCustomers × Option String :=
  ({ Customers := some (mapPut mc.raw c.Name c) }, none)

/-- The `Order` struct of `workflows/orders/orders.go`.  `Price` is a
`float32` in Go; it is pure payload (only logged, never computed with), so it
is modelled as an integer amount. -/
structure Order where
  Item : String
  Price : Int
  By : String
deriving Repr, DecidableEq

/-- Activity `activitiyFindCustomerByName`: delegates to
`customer.Database.Get`; the global database is threaded explicitly. -/
def activitiyFindCustomerByName (db : MemoryCustomers) (name : String) :
    MemoryCustomers × Customer × Option String :=
  db.Get name

/-- Activity `activityIsCustomerLegal`: errors for a visitor under 18,
returns `true` with `nil` error otherwise. -/
def activityIsCustomerLegal (visitor : Customer) : Bool × Option String :=
  if visitor.Age < 18 then
    (false, some "customer is not old enough, dont serve him")
  else
    (true, none)

/-- Child workflow `workflowProcessOrder`: looks the submitter up, then runs
the age gate; either failure aborts the order with that error. -/
def workflowProcessOrder (db : MemoryCustomers) (order : Order) :
    MemoryCustomers × Option String :=
  let r := activitiyFindCustomerByName db order.By
  match r.2.2 with
  | some e => (r.1, some e)
  | none =>
    let l := activityIsCustomerLegal r.2.1
    match l.2 with
    | some e => (r.1, some e)
    | none => (r.1, none)

/-- The constant `MaxSignalsAmount` of `workflows/orders/orders.go`. -/
def MaxSignalsAmount : Nat := 3

/-- Scheduling events observable in a run of `WorkflowOrder`:
`delivered o` — the signal reaches the workflow's signal channel;
`received o` — `c.Receive` returns with `o` inside the selector callback;
`dispatched o` — `ExecuteChildWorkflow(workflowProcessOrder, o)` is called;
`completed o` — `waiter.Get` returns (the child reported success or failure);
`restart` — the loop returns `NewContinueAsNewError`. -/
inductive Ev where
  | delivered (o : Order)
  | received (o : Order)
  | dispatched (o : Order)
  | completed (o : Order)
  | restart
deriving Repr, DecidableEq

/-- The state of the `WorkflowOrder` loop across generations: `gen` counts the
restarts so far, `signalCount` and `processed` are the current generation's
local counter (line `signalCount := 0`) and the orders it has dispatched,
`pending` is the signal-channel buffer. -/
structure SysState where
  gen : Nat
  signalCount : Nat
  pending : List Order
  processed : List Order
deriving Repr, DecidableEq

/-- The state in which `WorkflowOrder` starts. -/
def initState : SysState :=
  { gen := 0, signalCount := 0, pending := [], processed := [] }

/-- The two resting states of the orchestrator loop: `Draining` is exactly the
condition `signalCount >= MaxSignalsAmount` under which the loop arms the
selector's default branch before calling `Select`. -/
inductive Phase where
  | Running
  | Draining
deriving Repr, DecidableEq

/-- The phase the loop is in, read off its state. -/
def SysState.phase (s : SysState) : Phase :=
  if MaxSignalsAmount ≤ s.signalCount then Phase.Draining else Phase.Running

/-- One iteration of the `for` loop of `WorkflowOrder`, given the signals
`before` delivered before this `Select` resolves and the signals `during`
delivered while the iteration's child workflow (if any) is running.

* If a signal is buffered when `Select` runs, a receive branch is ready and
  fires first (ready branches beat the default): the callback receives the
  oldest signal, increments `signalCount`, dispatches the child workflow and
  blocks on `waiter.Get` until it completes; signals arriving meanwhile are
  buffered.
* Otherwise, if `signalCount >= MaxSignalsAmount`, the default branch the
  loop just armed fires: `restartWorkflow` is set and the loop returns
  `NewContinueAsNewError(ctx, WorkflowOrder)`; the workflow re-enters with
  fresh locals (`signalCount := 0`), and signals arriving around the boundary
  are delivered to the new run by the substrate.
* Otherwise `Select` blocks; newly delivered signals are buffered. -/
def orderStep (s : SysState) (before during : List Order) : SysState × List Ev :=
  match s.pending ++ before with
  | o :: rest =>
    ({ gen := s.gen, signalCount := s.signalCount + 1, pending := rest ++ during,
       processed := s.processed ++ [o] },
     [Ev.received o, Ev.dispatched o] ++ during.map Ev.delivered ++ [Ev.completed o])
  | [] =>
    if MaxSignalsAmount ≤ s.signalCount then
      ({ gen := s.gen + 1, signalCount := 0, pending := during, processed := [] },
       during.map Ev.delivered ++ [Ev.restart])
    else
      ({ s with pending := during }, during.map Ev.delivered)

/-- Run the loop from `s` over a delivery schedule (one
`(before, during)` pair per iteration), collecting the event trace. -/
def runFrom (s : SysState) : List (List Order × List Order) → SysState × List Ev
  | [] => (s, [])
  | d :: rest =>
    let r := orderStep s d.1 d.2
    let r' := runFrom r.1 rest
    (r'.1, r.2 ++ r'.2)

/-- Run `WorkflowOrder` from its initial state over a delivery schedule. -/
def orderRun (sched : List (List Order × List Order)) : SysState × List Ev :=
  runFrom initState sched

/-- The number of signals a schedule delivers in total. -/
def totalDelivered : List (List Order × List Order) → Nat
  | [] => 0
  | d :: rest => d.1.length + d.2.length + totalDelivered rest

/-- How many signals a trace receives. -/
def countReceived : List Ev → Nat
  | [] => 0
  | Ev.received _ :: t => countReceived t + 1
  | _ :: t => countReceived t

/-- How many sub-tasks a trace dispatches. -/
def countDispatched : List Ev → Nat
  | [] => 0
  | Ev.dispatched _ :: t => countDispatched t + 1
  | _ :: t => countDispatched t

/-- Walk a trace counting sub-tasks in flight (`dispatched` minus
`completed`); fail (`none`) if a completion has no matching dispatch or a
restart happens while a sub-task is in flight. -/
def flight : List Ev → Nat → Option Nat
  | [], n => some n
  | Ev.dispatched _ :: t, n => flight t (n + 1)
  | Ev.completed _ :: _, 0 => none
  | Ev.completed _ :: t, n + 1 => flight t n
  | Ev.restart :: t, 0 => flight t 0
  | Ev.restart :: _, _ + 1 => none
  | Ev.received _ :: t, n => flight t n
  | Ev.delivered _ :: t, n => flight t n

/-- Walk a trace with a flag saying whether a dispatched sub-task is still in
flight; fail (`none`) if, while one is, the loop receives a signal,
dispatches another sub-task, or restarts — i.e. succeed only if the loop
waits for each sub-task before doing anything but buffering deliveries. -/
def awaits : List Ev → Bool → Option Bool
  | [], b => some b
  | Ev.received _ :: t, false => awaits t false
  | Ev.received _ :: _, true => none
  | Ev.dispatched _ :: t, false => awaits t true
  | Ev.dispatched _ :: _, true => none
  | Ev.completed _ :: t, true => awaits t false
  | Ev.completed _ :: _, false => none
  | Ev.restart :: t, false => awaits t false
  | Ev.restart :: _, true => none
  | Ev.delivered _ :: t, b => awaits t b

/-- The state of the greetings module: the global `customer.Database` and the
module-level `visitorCount`, threaded explicitly. -/
structure GreetingsState where
  db : MemoryCustomers
  visitorCount : Int
deriving Repr, DecidableEq

/-- Activity `activityGreetings`: bumps the module-level visitor counter,
reads the visitor's old record from the database (ignoring the lookup error —
on a miss the zero `Customer` is used), and returns the visitor with
`LastVisit` set to now and `TimesVisited` set to the old count plus one. -/
def activityGreetings (st : GreetingsState) (now : GoTime) (visitor : Customer) :
    GreetingsState × Customer × Option String :=
  let vc := st.visitorCount + 1
  let r := st.db.Get visitor.Name
  ({ db := r.1, visitorCount := vc },
   { visitor with LastVisit := now, TimesVisited := r.2.1.TimesVisited + 1 },
   none)

/-- Activity `activityStoreCustomer`: persists the record via the database's
`Update`, propagating its (always-nil) error. -/
def activityStoreCustomer (st : GreetingsState) (visitor : Customer) :
    GreetingsState × Option String :=
  let r := st.db.Update visitor
  match r.2 with
  | some e => ({ st with db := r.1 }, some e)
  | none => ({ st with db := r.1 }, none)

/-- Workflow `workflowGreetings`: runs `activityGreetings` then
`activityStoreCustomer`; either failure aborts with the zero `Customer` and
that error, success returns the updated visitor. -/
def workflowGreetings (st : GreetingsState) (now : GoTime) (visitor : Customer) :
    GreetingsState × Customer × Option String :=
  let r := activityGreetings st now visitor
  match r.2.2 with
  | some e => (r.1, Customer.zero, some e)
  | none =>
    let r2 := activityStoreCustomer r.1 r.2.1
    match r2.2 with
    | some e => (r2.1, Customer.zero, some e)
    | none => (r2.1, r.2.1, none)

/-- The visit count the directory holds for `name` (0 when absent), the
baseline the greeting pipeline increments. -/
def storedVisits (db : MemoryCustomers) (name : String) : Int :=
  ((db.lookup name).map fun c => c.TimesVisited).getD 0

/-! ### Directory lemmas -/

/-- A just-stored binding is what lookup finds. -/
theorem mapGet_mapPut_self (m : List (String × Customer)) (k : String) (v : Customer) :
    mapGet (mapPut m k v) k = some v := by
  induction m with
  | nil => simp [mapPut, mapGet]
  | cons hd tl ih =>
    obtain ⟨k0, v0⟩ := hd
    by_cases h : k0 = k
    · simp [mapPut, mapGet, h]
    · simp [mapPut, mapGet, h, ih]

/-- Storing under one key leaves every other key's lookup unchanged. -/
theorem mapGet_mapPut_ne (m : List (String × Customer)) (k k' : String) (v : Customer)
    (h : k' ≠ k) : mapGet (mapPut m k v) k' = mapGet m k' := by
  induction m with
  | nil => simp [mapPut, mapGet, h.symm]
  | cons hd tl ih =>
    obtain ⟨k0, v0⟩ := hd
    by_cases h0 : k0 = k
    · subst h0
      simp [mapPut, mapGet, h.symm]
    · simp [mapPut, mapGet, h0, ih]

/-- The receiver `Get` hands back is the nil-normalized map. -/
theorem Get_fst (mc : MemoryCustomers) (name : String) :
    (mc.Get name).1 = { Customers := some mc.raw } := by
  rcases h : mapGet mc.raw name with _ | c <;>
    simp [MemoryCustomers.Get, h]

/-- `Get` does not change what any key maps to. -/
theorem lookup_Get_fst (mc : MemoryCustomers) (name n : String) :
    ((mc.Get name).1).lookup n = mc.lookup n := by
  rw [Get_fst]
  rfl

/-- On a hit, `Get` returns the stored record with nil error. -/
theorem Get_of_lookup_some (mc : MemoryCustomers) (name : String) (c : Customer)
    (h : mc.lookup name = some c) :
    mc.Get name = ({ Customers := some mc.raw }, c, none) := by
  unfold MemoryCustomers.lookup at h
  simp [MemoryCustomers.Get, h]

/-- On a miss, `Get` returns the zero customer and the not-found error. -/
theorem Get_of_lookup_none (mc : MemoryCustomers) (name : String)
    (h : mc.lookup name = none) :
    mc.Get name =
      ({ Customers := some mc.raw }, Customer.zero, some ("no such customer: " ++ name)) := by
  unfold MemoryCustomers.lookup at h
  simp [MemoryCustomers.Get, h]

/-- The record component `Get` returns carries the stored visit count (0 on a
miss, where the zero customer is returned). -/
theorem Get_timesVisited (mc : MemoryCustomers) (name : String) :
    (mc.Get name).2.1.TimesVisited = storedVisits mc name := by
  rcases h : mapGet mc.raw name with _ | c <;>
    simp [MemoryCustomers.Get, storedVisits, MemoryCustomers.lookup, h, Customer.zero]

/-- The database `workflowProcessOrder` threads out is the one `Get` threads
out: neither validation step writes to it. -/
theorem processOrder_fst (db : MemoryCustomers) (o : Order) :
    (workflowProcessOrder db o).1 = (db.Get o.By).1 := by
  unfold workflowProcessOrder activitiyFindCustomerByName
  cases h : (db.Get o.By).2.2 with
  | some e => simp [h]
  | none =>
    simp only [h]
    cases h2 : (activityIsCustomerLegal (db.Get o.By).2.1).2 <;> simp [h2]

/-! ### Claims about the directory and the validation pipeline -/

/-- C5: `activityIsCustomerLegal` fails with the ineligibility error exactly
when the customer's age is strictly below 18, and succeeds with `true` and no
error for every age of at least 18; consequently an order by a looked-up
customer goes through the age gate exactly when the stored age is at least
18. -/
theorem C5_age_gate (v : Customer) :
    ((activityIsCustomerLegal v).2.isSome ↔ v.Age < 18) ∧
    (v.Age < 18 →
      activityIsCustomerLegal v = (false, some "customer is not old enough, dont serve him")) ∧
    (18 ≤ v.Age → activityIsCustomerLegal v = (true, none)) ∧
    (∀ (db : MemoryCustomers) (o : Order), db.lookup o.By = some v →
      ((workflowProcessOrder db o).2 = none ↔ 18 ≤ v.Age)) := by
  refine ⟨?_, ?_, ?_, ?_⟩
  · by_cases h : v.Age < 18 <;> simp [activityIsCustomerLegal, h]
  · intro h
    simp [activityIsCustomerLegal, h]
  · intro h
    simp [activityIsCustomerLegal, not_lt.mpr h]
  · intro db o h
    have hget := Get_of_lookup_some db o.By v h
    by_cases ha : v.Age < 18
    · simp [workflowProcessOrder, activitiyFindCustomerByName, hget,
        activityIsCustomerLegal, ha, not_le.mpr ha]
    · simp [workflowProcessOrder, activitiyFindCustomerByName, hget,
        activityIsCustomerLegal, ha, not_lt.mp ha]

/-- C5 witness: a 17-year-old fails the gate, an 18-year-old passes it, and a
concrete order by the 18-year-old succeeds end to end. -/
theorem C5_age_gate_witness :
    ((Customer.mk "torstein" 0 0 17).Age < 18 ∧
      activityIsCustomerLegal (Customer.mk "torstein" 0 0 17) =
        (false, some "customer is not old enough, dont serve him")) ∧
    (18 ≤ (Customer.mk "torstein" 0 0 18).Age ∧
      activityIsCustomerLegal (Customer.mk "torstein" 0 0 18) = (true, none)) ∧
    ((MemoryCustomers.mk (some [("torstein", Customer.mk "torstein" 0 0 18)])).lookup
        "torstein" = some (Customer.mk "torstein" 0 0 18) ∧
      (workflowProcessOrder (MemoryCustomers.mk (some [("torstein", Customer.mk "torstein" 0 0 18)]))
        (Order.mk "ale" 3 "torstein")).2 = none) :=
  ⟨⟨by decide, (C5_age_gate (Customer.mk "torstein" 0 0 17)).2.1 (by decide)⟩,
   ⟨by decide, (C5_age_gate (Customer.mk "torstein" 0 0 18)).2.2.1 (by decide)⟩,
   ⟨by decide,
    ((C5_age_gate (Customer.mk "torstein" 0 0 18)).2.2.2
        (MemoryCustomers.mk (some [("torstein", Customer.mk "torstein" 0 0 18)]))
        (Order.mk "ale" 3 "torstein") (by decide)).mpr (by decide)⟩⟩

/-- C6: for every directory state, `Get` (and hence the pipeline's lookup
step `activitiyFindCustomerByName`, which is exactly `Get` on the shared
database) fails with the not-found error and returns the zero record when the
name is absent, and returns the stored record with nil error when it is
present. -/
theorem C6_lookup_absent_present (db : MemoryCustomers) (name : String) :
    activitiyFindCustomerByName db name = db.Get name ∧
    (db.lookup name = none →
      (activitiyFindCustomerByName db name).2.1 = Customer.zero ∧
      (activitiyFindCustomerByName db name).2.2 = some ("no such customer: " ++ name)) ∧
    (∀ c, db.lookup name = some c →
      (activitiyFindCustomerByName db name).2 = (c, none)) := by
  refine ⟨rfl, ?_, ?_⟩
  · intro h
    rw [activitiyFindCustomerByName, Get_of_lookup_none db name h]
    exact ⟨rfl, rfl⟩
  · intro c h
    rw [activitiyFindCustomerByName, Get_of_lookup_some db name c h]

/-- C6 witness: in a one-record directory, looking up an absent name fails
with the not-found error and looking up the present name returns the stored
record. -/
theorem C6_lookup_absent_present_witness :
    ((MemoryCustomers.mk (some [("percy", Customer.mk "percy" 0 2 30)])).lookup "loki" = none ∧
      (activitiyFindCustomerByName
          (MemoryCustomers.mk (some [("percy", Customer.mk "percy" 0 2 30)])) "loki").2.2 =
        some ("no such customer: " ++ "loki")) ∧
    ((MemoryCustomers.mk (some [("percy", Customer.mk "percy" 0 2 30)])).lookup "percy" =
        some (Customer.mk "percy" 0 2 30) ∧
      (activitiyFindCustomerByName
          (MemoryCustomers.mk (some [("percy", Customer.mk "percy" 0 2 30)])) "percy").2 =
        (Customer.mk "percy" 0 2 30, none)) :=
  ⟨⟨by decide,
    ((C6_lookup_absent_present
        (MemoryCustomers.mk (some [("percy", Customer.mk "percy" 0 2 30)])) "loki").2.1
      (by decide)).2⟩,
   ⟨by decide,
    (C6_lookup_absent_present
        (MemoryCustomers.mk (some [("percy", Customer.mk "percy" 0 2 30)])) "percy").2.2
      (Customer.mk "percy" 0 2 30) (by decide)⟩⟩

/-- C7: `Update` always succeeds, a `Get` of the record's name immediately
afterwards returns exactly the record just stored with nil error, and every
other name still maps to what it mapped to before — `Update` inserts when the
name was absent and replaces the whole record when it was present. -/
theorem C7_update_then_get (mc : MemoryCustomers) (r : Customer) :
    (mc.Update r).2 = none ∧
    ((mc.Update r).1.Get r.Name).2 = (r, none) ∧
    (∀ n, n ≠ r.Name → (mc.Update r).1.lookup n = mc.lookup n) := by
  refine ⟨rfl, ?_, ?_⟩
  · have h : ((mc.Update r).1).lookup r.Name = some r := by
      unfold MemoryCustomers.Update MemoryCustomers.lookup MemoryCustomers.raw
      simp [mapGet_mapPut_self]
    rw [Get_of_lookup_some _ _ _ h]
  · intro n hn
    unfold MemoryCustomers.Update MemoryCustomers.lookup MemoryCustomers.raw
    simp [mapGet_mapPut_ne _ _ _ _ hn]

/-- C7 witness: updating a record in a one-record directory succeeds, reading
it back returns exactly the stored record, and the other stored name is
untouched. -/
theorem C7_update_then_get_witness :
    ((MemoryCustomers.mk (some [("loki", Customer.mk "loki" 1 4 25)])).Update
        (Customer.mk "percy" 9 7 30)).2 = none ∧
    (((MemoryCustomers.mk (some [("loki", Customer.mk "loki" 1 4 25)])).Update
        (Customer.mk "percy" 9 7 30)).1.Get "percy").2 = (Customer.mk "percy" 9 7 30, none) ∧
    ("loki" ≠ "percy" ∧
      ((MemoryCustomers.mk (some [("loki", Customer.mk "loki" 1 4 25)])).Update
          (Customer.mk "percy" 9 7 30)).1.lookup "loki" =
        (MemoryCustomers.mk (some [("loki", Customer.mk "loki" 1 4 25)])).lookup "loki") :=
  ⟨(C7_update_then_get (MemoryCustomers.mk (some [("loki", Customer.mk "loki" 1 4 25)]))
      (Customer.mk "percy" 9 7 30)).1,
   (C7_update_then_get (MemoryCustomers.mk (some [("loki", Customer.mk "loki" 1 4 25)]))
      (Customer.mk "percy" 9 7 30)).2.1,
   by decide,
   (C7_update_then_get (MemoryCustomers.mk (some [("loki", Customer.mk "loki" 1 4 25)]))
      (Customer.mk "percy" 9 7 30)).2.2 "loki" (by decide)⟩

/-- C8: the two validation steps leave the directory observably unchanged on
every input — after a lookup (`Get`, hence `activitiyFindCustomerByName`) and
after a whole `workflowProcessOrder` run, successful or failed, every name
still maps to the record it mapped to before; the eligibility check does not
touch the directory at all. -/
theorem C8_validation_frame (db : MemoryCustomers) (name n : String) (o : Order) :
    ((db.Get name).1).lookup n = db.lookup n ∧
    ((activitiyFindCustomerByName db name).1).lookup n = db.lookup n ∧
    ((workflowProcessOrder db o).1).lookup n = db.lookup n := by
  refine ⟨lookup_Get_fst db name n, lookup_Get_fst db name n, ?_⟩
  rw [processOrder_fst]
  exact lookup_Get_fst db o.By n

/-! ### Claims about the greeting pipeline -/

/-- A run of the greeting pipeline in closed form: it always succeeds,
bumps the module-level visitor counter, and stores (and returns) the visitor
with `LastVisit` set to now and `TimesVisited` set to the directory's prior
count for that name plus one. -/
theorem workflowGreetings_eq (st : GreetingsState) (now : GoTime) (v : Customer) :
    workflowGreetings st now v =
      ({ db := { Customers := some (mapPut st.db.raw v.Name
                  { v with LastVisit := now, TimesVisited := storedVisits st.db v.Name + 1 }) },
         visitorCount := st.visitorCount + 1 },
       { v with LastVisit := now, TimesVisited := storedVisits st.db v.Name + 1 },
       none) := by
  unfold workflowGreetings activityGreetings activityStoreCustomer
  simp [MemoryCustomers.Update, Get_fst, Get_timesVisited, MemoryCustomers.raw]

/-- C9: every run of `workflowGreetings` succeeds, and afterwards the
directory's record for the visitor's name is exactly the returned record,
whose visit count is the count stored before the run plus one (so 1 when the
name was absent, since `storedVisits` is then 0); in particular the stored
count strictly increases. -/
theorem C9_greeting_increments (st : GreetingsState) (now : GoTime) (v : Customer) :
    (workflowGreetings st now v).2.2 = none ∧
    ((workflowGreetings st now v).1.db).lookup v.Name = some (workflowGreetings st now v).2.1 ∧
    (workflowGreetings st now v).2.1.TimesVisited = storedVisits st.db v.Name + 1 ∧
    storedVisits st.db v.Name < (workflowGreetings st now v).2.1.TimesVisited := by
  rw [workflowGreetings_eq]
  refine ⟨rfl, ?_, rfl, ?_⟩
  · unfold MemoryCustomers.lookup MemoryCustomers.raw
    simp [mapGet_mapPut_self]
  · exact lt_add_one _

/-- C10: the greeting pipeline ignores the caller-supplied visit metadata —
two inputs sharing `Name` and `Age` but differing arbitrarily in
`TimesVisited` and `LastVisit` produce, on every directory state, identical
results: the same final state, the same stored record and the same returned
record (in particular the same stored visit count, computed solely from the
directory's current record for that name). -/
theorem C10_metadata_independence (st : GreetingsState) (now : GoTime) (v1 v2 : Customer)
    (hname : v1.Name = v2.Name) (hage : v1.Age = v2.Age) :
    workflowGreetings st now v1 = workflowGreetings st now v2 := by
  obtain ⟨n1, l1, t1, a1⟩ := v1
  obtain ⟨n2, l2, t2, a2⟩ := v2
  simp only [Customer.mk.injEq] at hname hage
  subst hname
  subst hage
  rw [workflowGreetings_eq, workflowGreetings_eq]

/-- C10 witness: with the same name and age but different caller-supplied
visit counts and timestamps, two greetings from the same directory state
coincide. -/
theorem C10_metadata_independence_witness :
    (Customer.mk "percy" 5 99 30).Name = (Customer.mk "percy" 7 1 30).Name ∧
    (Customer.mk "percy" 5 99 30).Age = (Customer.mk "percy" 7 1 30).Age ∧
    workflowGreetings (GreetingsState.mk (MemoryCustomers.mk (some [])) 0) 11
        (Customer.mk "percy" 5 99 30) =
      workflowGreetings (GreetingsState.mk (MemoryCustomers.mk (some [])) 0) 11
        (Customer.mk "percy" 7 1 30) :=
  ⟨rfl, rfl,
   C10_metadata_independence (GreetingsState.mk (MemoryCustomers.mk (some [])) 0) 11
     (Customer.mk "percy" 5 99 30) (Customer.mk "percy" 7 1 30) rfl rfl⟩

/-! ### Orchestrator lemmas -/

/-- The receive branch of `orderStep` in closed form. -/
theorem orderStep_recv (s : SysState) (before during : List Order) (o : Order)
    (rest : List Order) (h : s.pending ++ before = o :: rest) :
    orderStep s before during =
      ({ gen := s.gen, signalCount := s.signalCount + 1, pending := rest ++ during,
         processed := s.processed ++ [o] },
       [Ev.received o, Ev.dispatched o] ++ during.map Ev.delivered ++ [Ev.completed o]) := by
  unfold orderStep
  rw [h]

/-- The restart branch of `orderStep` in closed form. -/
theorem orderStep_restart (s : SysState) (before during : List Order)
    (h : s.pending ++ before = []) (hc : MaxSignalsAmount ≤ s.signalCount) :
    orderStep s before during =
      ({ gen := s.gen + 1, signalCount := 0, pending := during, processed := [] },
       during.map Ev.delivered ++ [Ev.restart]) := by
  unfold orderStep
  rw [h]
  simp [hc]

/-- The blocked branch of `orderStep` in closed form. -/
theorem orderStep_idle (s : SysState) (before during : List Order)
    (h : s.pending ++ before = []) (hc : ¬ MaxSignalsAmount ≤ s.signalCount) :
    orderStep s before during = ({ s with pending := during }, during.map Ev.delivered) := by
  unfold orderStep
  rw [h]
  simp [hc]

/-- `flight` processes a concatenation left to right. -/
theorem flight_append (a b : List Ev) (n : Nat) :
    flight (a ++ b) n = (flight a n).bind fun m => flight b m := by
  induction a generalizing n with
  | nil => simp [flight]
  | cons e t ih =>
    cases e with
    | delivered o => simp [flight, ih]
    | received o => simp [flight, ih]
    | dispatched o => simp [flight, ih]
    | completed o =>
      cases n with
      | zero => simp [flight]
      | succ m => simp [flight, ih]
    | restart =>
      cases n with
      | zero => simp [flight, ih]
      | succ m => simp [flight]

/-- Deliveries do not change the in-flight count. -/
theorem flight_delivereds (l : List Order) (n : Nat) :
    flight (l.map Ev.delivered) n = some n := by
  induction l with
  | nil => rfl
  | cons o t ih => simp [flight, ih]

/-- Every single loop iteration emits a balanced block of events: it starts
and ends with no sub-task in flight, never completes an undispatched
sub-task, and only restarts with nothing in flight. -/
theorem flight_step (s : SysState) (before during : List Order) :
    flight (orderStep s before during).2 0 = some 0 := by
  rcases h : s.pending ++ before with _ | ⟨o, rest⟩
  · by_cases hc : MaxSignalsAmount ≤ s.signalCount
    · rw [orderStep_restart s before during h hc]
      simp [flight_append, flight_delivereds, flight]
    · rw [orderStep_idle s before during h hc]
      simp [flight_delivereds]
  · rw [orderStep_recv s before during o rest h]
    simp [flight, flight_append, flight_delivereds]

/-- Along any run of the loop the whole trace is balanced. -/
theorem flight_runFrom (s : SysState) (sched : List (List Order × List Order)) :
    flight ((runFrom s sched).2) 0 = some 0 := by
  induction sched generalizing s with
  | nil => rfl
  | cons d rest ih =>
    simp only [runFrom]
    rw [flight_append, flight_step]
    exact ih _

/-- `awaits` processes a concatenation left to right. -/
theorem awaits_append (a b : List Ev) (x : Bool) :
    awaits (a ++ b) x = (awaits a x).bind fun y => awaits b y := by
  induction a generalizing x with
  | nil => simp [awaits]
  | cons e t ih =>
    cases e with
    | delivered o => simp [awaits, ih]
    | received o =>
      cases x with
      | false => simp [awaits, ih]
      | true => simp [awaits]
    | dispatched o =>
      cases x with
      | false => simp [awaits, ih]
      | true => simp [awaits]
    | completed o =>
      cases x with
      | false => simp [awaits]
      | true => simp [awaits, ih]
    | restart =>
      cases x with
      | false => simp [awaits, ih]
      | true => simp [awaits]

/-- Deliveries are always allowed: they only buffer. -/
theorem awaits_delivereds (l : List Order) (x : Bool) :
    awaits (l.map Ev.delivered) x = some x := by
  induction l with
  | nil => rfl
  | cons o t ih => simp [awaits, ih]

/-- Every single loop iteration respects the await discipline: a dispatched
sub-task is completed before the iteration ends, and nothing but buffering
happens in between. -/
theorem awaits_step (s : SysState) (before during : List Order) :
    awaits (orderStep s before during).2 false = some false := by
  rcases h : s.pending ++ before with _ | ⟨o, rest⟩
  · by_cases hc : MaxSignalsAmount ≤ s.signalCount
    · rw [orderStep_restart s before during h hc]
      simp [awaits_append, awaits_delivereds, awaits]
    · rw [orderStep_idle s before during h hc]
      simp [awaits_delivereds]
  · rw [orderStep_recv s before during o rest h]
    simp [awaits, awaits_append, awaits_delivereds]

/-- Along any run of the loop the whole trace respects the await
discipline. -/
theorem awaits_runFrom (s : SysState) (sched : List (List Order × List Order)) :
    awaits ((runFrom s sched).2) false = some false := by
  induction sched generalizing s with
  | nil => rfl
  | cons d rest ih =>
    simp only [runFrom]
    rw [awaits_append, awaits_step]
    exact ih _

/-- `countReceived` over a concatenation. -/
theorem countReceived_append (a b : List Ev) :
    countReceived (a ++ b) = countReceived a + countReceived b := by
  induction a with
  | nil => simp [countReceived]
  | cons e t ih =>
    cases e <;> simp [countReceived, ih, Nat.add_assoc, Nat.add_comm, Nat.add_left_comm]

/-- Deliveries receive nothing. -/
theorem countReceived_delivereds (l : List Order) :
    countReceived (l.map Ev.delivered) = 0 := by
  induction l with
  | nil => rfl
  | cons o t ih => simp [countReceived, ih]

/-- `countDispatched` over a concatenation. -/
theorem countDispatched_append (a b : List Ev) :
    countDispatched (a ++ b) = countDispatched a + countDispatched b := by
  induction a with
  | nil => simp [countDispatched]
  | cons e t ih =>
    cases e <;> simp [countDispatched, ih, Nat.add_assoc, Nat.add_comm, Nat.add_left_comm]

/-- Deliveries dispatch nothing. -/
theorem countDispatched_delivereds (l : List Order) :
    countDispatched (l.map Ev.delivered) = 0 := by
  induction l with
  | nil => rfl
  | cons o t ih => simp [countDispatched, ih]

/-- Signal conservation: along any run, the signals received plus the signals
still buffered at the end account exactly for everything buffered at the
start plus everything delivered — the loop drops no signal. -/
theorem conservation_runFrom (sched : List (List Order × List Order)) (s : SysState) :
    countReceived ((runFrom s sched).2) + ((runFrom s sched).1).pending.length =
      s.pending.length + totalDelivered sched := by
  induction sched generalizing s with
  | nil => simp [runFrom, countReceived, totalDelivered]
  | cons d rest ih =>
    obtain ⟨bs, ds⟩ := d
    simp only [runFrom, totalDelivered]
    rcases hps : s.pending ++ bs with _ | ⟨o, rest'⟩
    · obtain ⟨hp, hb⟩ := List.append_eq_nil.mp hps
      have hpl : s.pending.length = 0 := by rw [hp]; rfl
      have hbl : bs.length = 0 := by rw [hb]; rfl
      by_cases hc : MaxSignalsAmount ≤ s.signalCount
      · rw [orderStep_restart s bs ds hps hc]
        dsimp only
        have h1 := ih (SysState.mk (s.gen + 1) 0 ds [])
        dsimp only at h1
        rw [countReceived_append, countReceived_append, countReceived_delivereds]
        simp only [countReceived] at h1 ⊢
        omega
      · rw [orderStep_idle s bs ds hps hc]
        dsimp only
        have h1 := ih (SysState.mk s.gen s.signalCount ds s.processed)
        dsimp only at h1
        rw [countReceived_append, countReceived_delivereds]
        omega
    · have hlen : s.pending.length + bs.length = rest'.length + 1 := by
        have h2 := congrArg List.length hps
        simp only [List.length_append, List.length_cons] at h2
        omega
      rw [orderStep_recv s bs ds o rest' hps]
      dsimp only
      have h1 := ih (SysState.mk s.gen (s.signalCount + 1) (rest' ++ ds) (s.processed ++ [o]))
      dsimp only at h1
      rw [countReceived_append, countReceived_append, countReceived_append,
        countReceived_delivereds]
      simp only [countReceived, List.length_append] at h1 ⊢
      omega

/-- A prefix of a schedule delivers no more than the whole schedule. -/
theorem totalDelivered_take (sched : List (List Order × List Order)) (n : Nat) :
    totalDelivered (sched.take n) ≤ totalDelivered sched := by
  induction sched generalizing n with
  | nil => simp [totalDelivered]
  | cons d rest ih =>
    cases n with
    | zero => simp [totalDelivered]
    | succ m =>
      simp only [List.take, totalDelivered]
      have := ih m
      omega

/-- While fewer signals than can ever reach the threshold are around, the
loop keeps its generation, and its counter plus buffer stay bounded by what
was buffered plus what was delivered. -/
theorem run_bound (sched : List (List Order × List Order)) (s : SysState)
    (h : s.signalCount + s.pending.length + totalDelivered sched < MaxSignalsAmount) :
    ((runFrom s sched).1).gen = s.gen ∧
    ((runFrom s sched).1).signalCount + ((runFrom s sched).1).pending.length ≤
      s.signalCount + s.pending.length + totalDelivered sched := by
  induction sched generalizing s with
  | nil => simp [runFrom]
  | cons d rest ih =>
    obtain ⟨bs, ds⟩ := d
    simp only [totalDelivered] at h
    simp only [runFrom, totalDelivered]
    rcases hps : s.pending ++ bs with _ | ⟨o, rest'⟩
    · obtain ⟨hp, hb⟩ := List.append_eq_nil.mp hps
      have hpl : s.pending.length = 0 := by rw [hp]; rfl
      have hbl : bs.length = 0 := by rw [hb]; rfl
      have hc : ¬ MaxSignalsAmount ≤ s.signalCount := by omega
      rw [orderStep_idle s bs ds hps hc]
      dsimp only
      have h1 := ih (SysState.mk s.gen s.signalCount ds s.processed) (by dsimp only; omega)
      dsimp only at h1
      omega
    · have hlen : s.pending.length + bs.length = rest'.length + 1 := by
        have h2 := congrArg List.length hps
        simp only [List.length_append, List.length_cons] at h2
        omega
      rw [orderStep_recv s bs ds o rest' hps]
      dsimp only
      have h1 := ih (SysState.mk s.gen (s.signalCount + 1) (rest' ++ ds) (s.processed ++ [o]))
        (by dsimp only; simp only [List.length_append]; omega)
      dsimp only at h1
      simp only [List.length_append] at h1 ⊢
      omega

/-! ### Claims about the orchestrator -/

/-- C1 (amended): while at most `MaxSignalsAmount - 1` signals have been
delivered, every state the loop passes through is `Running` in generation 0;
once `MaxSignalsAmount` signals have been received the default branch is
armed (`Draining`), and at the next `Select` the loop restarts without
dispatching anything further only if no signal is buffered — a signal that is
already buffered fires a ready receive branch first, so it is received and
dispatched as one more sub-task of the *current* generation rather than being
deferred; it is not dropped. -/
theorem C1_threshold_amended :
    (∀ (sched : List (List Order × List Order)) (n : Nat),
      totalDelivered sched ≤ MaxSignalsAmount - 1 →
      ((orderRun (sched.take n)).1).phase = Phase.Running ∧
      ((orderRun (sched.take n)).1).gen = 0) ∧
    (∀ (s : SysState) (during : List Order),
      s.pending = [] → MaxSignalsAmount ≤ s.signalCount →
      (orderStep s [] during).1.gen = s.gen + 1 ∧
      countDispatched (orderStep s [] during).2 = 0) ∧
    (∀ (s : SysState) (before during : List Order) (o : Order) (rest : List Order),
      s.pending ++ before = o :: rest →
      (orderStep s before during).1.gen = s.gen ∧
      (orderStep s before during).1.signalCount = s.signalCount + 1 ∧
      Ev.dispatched o ∈ (orderStep s before during).2) := by
  refine ⟨?_, ?_, ?_⟩
  · intro sched n h
    have hb := le_trans (totalDelivered_take sched n) h
    have h0 : initState.signalCount = 0 := rfl
    have h1 : initState.pending.length = 0 := rfl
    have hr := run_bound (sched.take n) initState (by
      simp only [MaxSignalsAmount] at hb ⊢
      omega)
    obtain ⟨hg, hc⟩ := hr
    have hcount : ¬ MaxSignalsAmount ≤ ((runFrom initState (sched.take n)).1).signalCount := by
      simp only [MaxSignalsAmount] at hb hc ⊢
      omega
    refine ⟨?_, ?_⟩
    · simp [orderRun, SysState.phase, hcount]
    · rw [show (0:Nat) = initState.gen from rfl]
      exact hg
  · intro s during hp hc
    rw [orderStep_restart s [] during (by simp [hp]) hc]
    dsimp only
    rw [countDispatched_append, countDispatched_delivereds]
    exact ⟨rfl, rfl⟩
  · intro s before during o rest h
    rw [orderStep_recv s before during o rest h]
    dsimp only
    refine ⟨rfl, rfl, ?_⟩
    simp

/-- C1 witness: one delivered signal keeps the loop `Running` in generation
0; a drained state at the threshold restarts with no further dispatch; a
state with a buffered signal receives and dispatches it in place. -/
theorem C1_threshold_amended_witness :
    (totalDelivered [([Order.mk "ale" 3 "percy"], [])] ≤ MaxSignalsAmount - 1 ∧
      ((orderRun ([(([Order.mk "ale" 3 "percy"] : List Order), ([] : List Order))].take 1)).1).phase
        = Phase.Running ∧
      ((orderRun ([(([Order.mk "ale" 3 "percy"] : List Order), ([] : List Order))].take 1)).1).gen
        = 0) ∧
    ((SysState.mk 0 3 [] []).pending = [] ∧
      MaxSignalsAmount ≤ (SysState.mk 0 3 [] []).signalCount ∧
      (orderStep (SysState.mk 0 3 [] []) [] []).1.gen = (SysState.mk 0 3 [] []).gen + 1 ∧
      countDispatched (orderStep (SysState.mk 0 3 [] []) [] []).2 = 0) ∧
    ((SysState.mk 0 3 [Order.mk "mead" 4 "loki"] []).pending ++ [] =
        Order.mk "mead" 4 "loki" :: [] ∧
      (orderStep (SysState.mk 0 3 [Order.mk "mead" 4 "loki"] []) [] []).1.gen =
        (SysState.mk 0 3 [Order.mk "mead" 4 "loki"] []).gen ∧
      Ev.dispatched (Order.mk "mead" 4 "loki") ∈
        (orderStep (SysState.mk 0 3 [Order.mk "mead" 4 "loki"] []) [] []).2) :=
  ⟨⟨by decide,
    C1_threshold_amended.1 [(([Order.mk "ale" 3 "percy"] : List Order), ([] : List Order))] 1
      (by decide)⟩,
   ⟨rfl, by decide,
    C1_threshold_amended.2.1 (SysState.mk 0 3 [] []) [] rfl (by decide)⟩,
   ⟨rfl,
    (C1_threshold_amended.2.2 (SysState.mk 0 3 [Order.mk "mead" 4 "loki"] []) [] []
        (Order.mk "mead" 4 "loki") [] rfl).1,
    (C1_threshold_amended.2.2 (SysState.mk 0 3 [Order.mk "mead" 4 "loki"] []) [] []
        (Order.mk "mead" 4 "loki") [] rfl).2.2⟩⟩

/-- C1 counterexample: deliver three signals (the third's sub-task still
running when a fourth arrives).  After the third receive the loop is
`Draining` in generation 0 with the fourth signal buffered — and the next
`Select` receives and dispatches that fourth signal in the same generation:
a (threshold+1)-th sub-task of the current generation, contradicting the
claim that none is dispatched. -/
theorem C1_counterexample :
    ((orderRun [([Order.mk "ale" 3 "a"], []), ([Order.mk "mead" 4 "b"], []),
        ([Order.mk "stew" 7 "c"], [Order.mk "pie" 5 "d"])]).1.phase = Phase.Draining ∧
      (orderRun [([Order.mk "ale" 3 "a"], []), ([Order.mk "mead" 4 "b"], []),
        ([Order.mk "stew" 7 "c"], [Order.mk "pie" 5 "d"])]).1.signalCount = MaxSignalsAmount ∧
      (orderRun [([Order.mk "ale" 3 "a"], []), ([Order.mk "mead" 4 "b"], []),
        ([Order.mk "stew" 7 "c"], [Order.mk "pie" 5 "d"])]).1.gen = 0) ∧
    ((orderRun [([Order.mk "ale" 3 "a"], []), ([Order.mk "mead" 4 "b"], []),
        ([Order.mk "stew" 7 "c"], [Order.mk "pie" 5 "d"]), ([], [])]).1.gen = 0 ∧
      countDispatched (orderRun [([Order.mk "ale" 3 "a"], []), ([Order.mk "mead" 4 "b"], []),
        ([Order.mk "stew" 7 "c"], [Order.mk "pie" 5 "d"]), ([], [])]).2 =
        MaxSignalsAmount + 1 ∧
      (orderRun [([Order.mk "ale" 3 "a"], []), ([Order.mk "mead" 4 "b"], []),
        ([Order.mk "stew" 7 "c"], [Order.mk "pie" 5 "d"]), ([], [])]).1.processed =
        [Order.mk "ale" 3 "a", Order.mk "mead" 4 "b", Order.mk "stew" 7 "c",
          Order.mk "pie" 5 "d"]) := by
  decide

/-- C2: whenever a step of the loop restarts (its generation number
increases, i.e. `NewContinueAsNewError` was returned and `WorkflowOrder`
re-entered), the new generation's counter is 0 and its processed list is
empty, whatever count and backlog the prior generation held. -/
theorem C2_counter_reset (s : SysState) (before during : List Order)
    (h : (orderStep s before during).1.gen = s.gen + 1) :
    (orderStep s before during).1.signalCount = 0 ∧
    (orderStep s before during).1.processed = [] := by
  rcases hps : s.pending ++ before with _ | ⟨o, rest⟩
  · by_cases hc : MaxSignalsAmount ≤ s.signalCount
    · rw [orderStep_restart s before during hps hc]
      exact ⟨rfl, rfl⟩
    · rw [orderStep_idle s before during hps hc] at h
      dsimp only at h
      exact absurd h (by omega)
  · rw [orderStep_recv s before during o rest hps] at h
    dsimp only at h
    exact absurd h (by omega)

/-- C2 witness: a generation that has processed five signals restarts into a
generation whose counter is 0 and whose processed list is empty. -/
theorem C2_counter_reset_witness :
    (orderStep (SysState.mk 7 5 [] []) [] []).1.gen = (SysState.mk 7 5 [] []).gen + 1 ∧
    (orderStep (SysState.mk 7 5 [] []) [] []).1.signalCount = 0 ∧
    (orderStep (SysState.mk 7 5 [] []) [] []).1.processed = [] :=
  ⟨by decide, C2_counter_reset (SysState.mk 7 5 [] []) [] [] (by decide)⟩

/-- C3 (amended): the orchestrator blocks on each dispatched sub-task inside
the receive handler — along every schedule, while a sub-task is in flight no
signal is received, nothing else is dispatched and no restart happens (only
deliveries, which are buffered), and no buffered signal is ever lost: signals
received plus signals still buffered equal signals delivered. -/
theorem C3_awaits_each_subtask (sched : List (List Order × List Order)) :
    awaits ((orderRun sched).2) false = some false ∧
    countReceived ((orderRun sched).2) + ((orderRun sched).1).pending.length =
      totalDelivered sched := by
  constructor
  · exact awaits_runFrom initState sched
  · have h := conservation_runFrom sched initState
    simpa [initState, orderRun] using h

/-- C3 counterexample: one signal is delivered and its sub-task dispatched;
a second signal arrives while that sub-task is still running (between its
dispatch and its completion in the trace) — yet the second signal is received
only *after* the first sub-task completes, refuting the claim that the loop
accepts the next signal without waiting for the sub-task to finish. -/
theorem C3_counterexample :
    (orderRun [([Order.mk "ale" 3 "percy"], [Order.mk "mead" 4 "loki"]), ([], [])]).2 =
      [Ev.received (Order.mk "ale" 3 "percy"), Ev.dispatched (Order.mk "ale" 3 "percy"),
        Ev.delivered (Order.mk "mead" 4 "loki"), Ev.completed (Order.mk "ale" 3 "percy"),
        Ev.received (Order.mk "mead" 4 "loki"), Ev.dispatched (Order.mk "mead" 4 "loki"),
        Ev.completed (Order.mk "mead" 4 "loki")] := by
  decide

/-- C4: along every schedule the run's trace is balanced — every completion
matches a dispatch, the run ends with nothing in flight, and every `restart`
happens at a point where every sub-task dispatched so far has completed: the
orchestrator never restarts while a sub-task is in flight. -/
theorem C4_no_restart_in_flight (sched : List (List Order × List Order)) :
    flight ((orderRun sched).2) 0 = some 0 :=
  flight_runFrom initState sched
